import Mathlib

/-!
Verification development for the sensitive-information extractor
(`sensitive_extractor.py`).  The scanning core is shallowly embedded:
file contents are `List Char`, byte contents are `List Nat`, regular
expression matchers are abstract functions from a line to the list of
matched substrings (in match order, as produced by `finditer`), and the
per-extractor mutable state (`results`, `scanned_files`, `skipped_files`,
`error_files`, `stats`) is an explicit `ScanState` record threaded through
the operations.  Threading is modelled sequentially: each worker's effect
on the shared lists is serialized in discovery order, which is faithful
for the accounting and result-content properties studied here (none of
them depend on completion order).
-/

namespace SensitiveExtractor

/-- The five decode attempts of `read_file_content`
(`encodings = ['utf-8', 'gbk', 'gb2312', 'utf-16', 'latin-1']`). -/
inductive Encoding where
  | utf8
  | gbk
  | gb2312
  | utf16
  | latin1
deriving DecidableEq, Repr

/-- Outcome of one `open(file, 'r', encoding=e).read()` attempt:
a successful full decode, a `UnicodeDecodeError`, or any other
exception (non-decode I/O error) carrying its message. -/
inductive ReadResult where
  | ok (text : List Char)
  | decodeError
  | ioError (msg : String)
deriving DecidableEq, Repr

/-- The encoding order fixed at line 311 of the source:
`encodings = ['utf-8', 'gbk', 'gb2312', 'utf-16', 'latin-1']`. -/
def encodingsList : List Encoding :=
  [Encoding.utf8, Encoding.gbk, Encoding.gb2312, Encoding.utf16, Encoding.latin1]

/-- Error message appended when every encoding raised a decode error
(source line 323). -/
def noEncodingMsg : String := "无法使用任何编码读取文件"

/-- The encoding loop of `read_file_content`: try each encoding in order;
`UnicodeDecodeError` continues to the next encoding, any other exception
appends `(path, msg)` to `error_files` and returns `""`, a success returns
the decoded text; an exhausted list appends the fixed message and
returns `""`.  The returned pair is (content, updated error list). -/
def readTry (f : Encoding → ReadResult) (path : String)
    (errs : List (String × String)) :
    List Encoding → List Char × List (String × String)
  | [] => ([], errs ++ [(path, noEncodingMsg)])
  | e :: es =>
    match f e with
    | ReadResult.ok t => (t, errs)
    | ReadResult.decodeError => readTry f path errs es
    | ReadResult.ioError m => ([], errs ++ [(path, m)])

/-- `read_file_content` (source lines 309–324), as a function of the
per-encoding attempt outcomes `f`, the file path and the incoming
`error_files` list.  The Python function returns the string `""` both on
error and when no decode produced text; the model returns `[]` then. -/
def read_file_content (f : Encoding → ReadResult) (path : String)
    (errs : List (String × String)) : List Char × List (String × String) :=
  readTry f path errs encodingsList

/-- Content component of the encoding loop, ignoring the error list. -/
def readContent (f : Encoding → ReadResult) : List Encoding → List Char
  | [] => []
  | e :: es =>
    match f e with
    | ReadResult.ok t => t
    | ReadResult.decodeError => readContent f es
    | ReadResult.ioError _ => []

/-- Error entries appended by the encoding loop. -/
def readErrors (f : Encoding → ReadResult) (path : String) :
    List Encoding → List (String × String)
  | [] => [(path, noEncodingMsg)]
  | e :: es =>
    match f e with
    | ReadResult.ok _ => []
    | ReadResult.decodeError => readErrors f path es
    | ReadResult.ioError m => [(path, m)]

/-- Python's `str.split(sep)` for a single-character separator, on char
lists: `"".split(c)` is `[""]`, and every occurrence of the separator
starts a new chunk.  Models `content.split('\n')` at source line 343. -/
def splitOnChar (c : Char) : List Char → List (List Char)
  | [] => [[]]
  | x :: xs =>
    let r := splitOnChar c xs
    if x = c then [] :: r
    else
      match r with
      | [] => [[x]]
      | y :: ys => (x :: y) :: ys

/-- A compiled regular expression, abstracted to its observable behavior
in the per-line loop: `m line` is the list of `match.group(0)` texts that
`finditer` yields on `line`, in match order. -/
def Matcher : Type := List Char → List (List Char)

/-- The per-line match loop of `scan_file` (source lines 356–358):
`for line_num, line in enumerate(lines, 1): for match in
compiled_pattern.finditer(line): matches.append((match.group(0),
line_num))`, here parameterized by the first line number `k`. -/
def scanLines (m : Matcher) (k : Nat) : List (List Char) → List (List Char × Nat)
  | [] => []
  | l :: ls => (m l).map (fun s => (s, k)) ++ scanLines m (k + 1) ls

/-- Matches of one compiled pattern over a whole file content: the
content is split on `'\n'` (source line 343) and each line is searched
independently, line numbers starting at 1. -/
def scan_pattern (m : Matcher) (content : List Char) : List (List Char × Nat) :=
  scanLines m 1 (splitOnChar (Char.ofNat 10) content)

/-- The newline character `content.split('\n')` splits on. -/
def nlChar : Char := Char.ofNat 10

/-- The carriage-return character; universal-newline text reading
(Python `open(..., 'r')`) translates it away, so decoded content never
contains it. -/
def crChar : Char := Char.ofNat 13

/-- `self.text_extensions` (source lines 49–56). -/
def text_extensions : List String :=
  [".txt", ".md", ".py", ".js", ".html", ".htm", ".css", ".xml", ".json",
   ".yml", ".yaml", ".ini", ".cfg", ".conf", ".config", ".properties",
   ".sql", ".sh", ".bat", ".ps1", ".php", ".java", ".cpp", ".c", ".h",
   ".cs", ".go", ".rs", ".rb", ".pl", ".swift", ".kt", ".scala", ".clj",
   ".lua", ".r", ".m", ".dart", ".tsx", ".jsx", ".vue", ".log", ".env",
   ".dockerfile", ".makefile", ".gitignore", ".gitattributes", ".editorconfig"]

/-- `self.binary_extensions` (source lines 59–67). -/
def binary_extensions : List String :=
  [".exe", ".dll", ".so", ".dylib", ".bin", ".dat", ".db", ".sqlite",
   ".jpg", ".jpeg", ".png", ".gif", ".bmp", ".ico", ".svg", ".webp",
   ".mp4", ".avi", ".mkv", ".mov", ".wmv", ".flv", ".webm", ".m4v",
   ".mp3", ".wav", ".flac", ".aac", ".ogg", ".wma", ".m4a",
   ".zip", ".rar", ".7z", ".tar", ".gz", ".bz2", ".xz", ".lzma",
   ".pdf", ".doc", ".docx", ".xls", ".xlsx", ".ppt", ".pptx",
   ".class", ".jar", ".war", ".ear", ".pyc", ".pyo", ".pyd"]

/-- What `is_text_file` observes about one file: its extension
(`Path.suffix`), the `mimetypes.guess_type` answer for its name, whether
the fallback binary `open`/`read` succeeds, and the raw byte content
(the fallback reads `f.read(1024)`, i.e. the first 1024 bytes). -/
structure FileProbe where
  suffix : String
  mimeType : Option String
  openOk : Bool
  bytes : List Nat

/-- `str.lower()` as used on extensions: character-wise lowering.  The
extension sets compared against are pure ASCII, for which this agrees
with Python's Unicode-aware lowering. -/
def str_lower (s : String) : String :=
  String.mk (s.data.map Char.toLower)

/-- The MIME test at source lines 287–289: `mime_type.startswith('text/')
or mime_type in ['application/json', 'application/xml',
'application/javascript']`. -/
def mimeIsText (m : String) : Bool :=
  m.startsWith "text/" ||
    decide (m ∈ ["application/json", "application/xml", "application/javascript"])

/-- `is_text_file` (source lines 273–307), parameterized by the decode
success predicates of the two codecs tried on the leading chunk
(`chunk.decode('utf-8')` and `chunk.decode('gbk')`).  Rules are applied
in source order: binary deny-list, text allow-list, resolvable MIME type,
then the 1024-byte fallback (null byte ⇒ binary, else either decode
succeeding ⇒ text); an I/O error while opening/reading returns `False`. -/
def is_text_file (utf8Ok gbkOk : List Nat → Bool) (fp : FileProbe) : Bool :=
  if str_lower fp.suffix ∈ binary_extensions then false
  else if str_lower fp.suffix ∈ text_extensions then true
  else
    match fp.mimeType with
    | some m => mimeIsText m
    | none =>
      if fp.openOk = false then false
      else
        let chunk := fp.bytes.take 1024
        if (0 : Nat) ∈ chunk then false
        else utf8Ok chunk || gbkOk chunk

/-- One entry of the rule-definition mapping (`patterns.json` /
`get_default_patterns`): `regex`, `description`, `risk_level`,
`enabled`. -/
structure PatternInfo where
  regex : String
  description : String
  risk_level : String
  enabled : Bool
deriving DecidableEq, Repr

/-- The compile loop of `__init__` (source lines 41–46): for every rule,
`re.compile` its regex; on failure print a warning and continue, keeping
every rule that compiled.  `compile` abstracts `re.compile` with
`re.DOTALL` (`none` models a compile exception).  The rule mapping is a
key-ordered association list, as a Python `dict` iterates. -/
def compile_patterns {M : Type} (compile : String → Option M)
    (patterns : List (String × PatternInfo)) : List (String × M) :=
  patterns.filterMap (fun p => (compile p.2.regex).map (fun m => (p.1, m)))

/-- One rule as seen by `scan_file`'s match loop: the entry of
`compiled_patterns` joined with the `enabled` flag its `patterns` record
carries (`self.patterns[pattern_name].get('enabled', True)`). -/
structure ScanRule where
  name : String
  enabled : Bool
  matcher : Matcher

/-- The pattern loop of `scan_file` (source lines 345–361): iterate the
compiled rules in order, skip a rule whose `enabled` flag is false,
collect its per-line matches, and record an entry only when the match
list is non-empty. -/
def scan_file_results (rules : List ScanRule) (content : List Char) :
    List (String × List (List Char × Nat)) :=
  rules.filterMap (fun r =>
    if r.enabled = false then none
    else
      let ms := scan_pattern r.matcher content
      if ms = [] then none else some (r.name, ms))

/-- What the scanning pipeline observes about one discovered file: its
path, the verdict of `is_text_file`, and the outcome of each decode
attempt of `read_file_content`. -/
structure FileModel where
  path : String
  classifiedText : Bool
  readAttempt : Encoding → ReadResult

/-- What `scan_directory` observes about the root argument: the
`Path.exists()` and `Path.is_dir()` answers and the file list produced
by `get_all_files` (the walker, whose exclusion rules are upstream of
every property studied here). -/
structure DirModel where
  pathExists : Bool
  isDir : Bool
  files : List FileModel

instance instDecEqFileResults :
    DecidableEq (List (String × List (List Char × Nat))) := inferInstance

instance instDecEqResultsMap :
    DecidableEq (List (String × List (String × List (List Char × Nat)))) :=
  inferInstance

/-- The per-extractor mutable state set up by `__init__` (source lines
69–88): `results`, the three outcome lists, the two control flags and
the `stats` dictionary.  Timestamps are abstract ticks. -/
structure ScanState where
  results : List (String × List (String × List (List Char × Nat)))
  scanned_files : List String
  skipped_files : List String
  error_files : List (String × String)
  is_scanning : Bool
  scan_cancelled : Bool
  stats_total_files : Nat
  stats_scanned_files : Nat
  stats_skipped_files : Nat
  stats_error_files : Nat
  stats_sensitive_items : Nat
  stats_start_time : Option Nat
  stats_end_time : Option Nat
deriving DecidableEq

/-- The state a fresh `SensitiveInfoExtractor()` starts with. -/
def init_state : ScanState :=
  { results := []
    scanned_files := []
    skipped_files := []
    error_files := []
    is_scanning := false
    scan_cancelled := false
    stats_total_files := 0
    stats_scanned_files := 0
    stats_skipped_files := 0
    stats_error_files := 0
    stats_sensitive_items := 0
    stats_start_time := none
    stats_end_time := none }

/-- Errors `scan_directory` raises before starting (source lines
390–394). -/
inductive PathErr where
  | fileNotFound
  | notADirectory
deriving DecidableEq, Repr

/-- `scan_file` (source lines 326–363): return empty on a cancelled
scan; a file classified non-text is appended to `skipped_files`; the
content is read (recording any read error in `error_files`); a falsy
content string — a read error, but also a legitimately empty file —
returns with no further record; otherwise the file is appended to
`scanned_files` and the pattern loop runs.  The cancellation flag is
read once at entry: the model is sequential, so the mid-loop
re-check of `scan_cancelled` can never observe a different value. -/
def scan_file (rules : List ScanRule) (fm : FileModel) (st : ScanState) :
    ScanState × List (String × List (List Char × Nat)) :=
  if st.scan_cancelled then (st, [])
  else if fm.classifiedText = false then
    ({ st with skipped_files := st.skipped_files ++ [fm.path] }, [])
  else
    let rc := read_file_content fm.readAttempt fm.path st.error_files
    let st1 := { st with error_files := rc.2 }
    if rc.1 = [] then (st1, [])
    else
      ({ st1 with scanned_files := st1.scanned_files ++ [fm.path] },
       scan_file_results rules rc.1)

/-- `len(matches)` summed over the patterns of one file's results — the
amount `stats['sensitive_items']` grows by (source line 437). -/
def item_count (fr : List (String × List (List Char × Nat))) : Nat :=
  (fr.map (fun p => p.2.length)).sum

/-- `self.results[file_path][pattern_name].extend(matches)` with
on-demand creation of the inner key (source lines 433–436), on an
insertion-ordered association list. -/
def extend_assoc (key : String) (ms : List (List Char × Nat)) :
    List (String × List (List Char × Nat)) → List (String × List (List Char × Nat))
  | [] => [(key, ms)]
  | (k, v) :: rest =>
    if k = key then (k, v ++ ms) :: rest else (k, v) :: extend_assoc key ms rest

/-- Merge one file's results into its (possibly existing) entry. -/
def merge_file_results (pr : List (String × List (List Char × Nat)))
    (fr : List (String × List (List Char × Nat))) :
    List (String × List (List Char × Nat)) :=
  fr.foldl (fun acc p => extend_assoc p.1 p.2 acc) pr

/-- `self.results[file_path] = {}` on demand followed by the per-pattern
merge (source lines 430–436). -/
def update_results (path : String) (fr : List (String × List (List Char × Nat))) :
    List (String × List (String × List (List Char × Nat))) →
    List (String × List (String × List (List Char × Nat)))
  | [] => [(path, merge_file_results [] fr)]
  | (p, pr) :: rest =>
    if p = path then (p, merge_file_results pr fr) :: rest
    else (p, pr) :: update_results path fr rest

/-- One loop step of the completion loop in `scan_directory` (source
lines 419–450): run `scan_file` and, when the returned mapping is
non-empty (`if file_results:`), merge it into `results` and grow
`stats['sensitive_items']`.  Progress/status callbacks are pure
I/O and are not modelled. -/
def process_file (rules : List ScanRule) (st : ScanState) (fm : FileModel) :
    ScanState :=
  let r := scan_file rules fm st
  if r.2 = [] then r.1
  else
    { r.1 with
      results := update_results fm.path r.2 r.1.results
      stats_sensitive_items := r.1.stats_sensitive_items + item_count r.2 }

/-- `scan_directory` (source lines 386–464): validate the root (raising
`FileNotFoundError` / `NotADirectoryError` before touching any state),
set the flags and start time, count the discovered files, process every
file, then store the three list lengths, the end time and clear
`is_scanning`.  The first component is the raised error, if any; the
second is the extractor state afterwards.  The thread pool is modelled
by processing completions sequentially (the claims proved about it do
not depend on completion order), and cancellation never arrives
mid-scan (no other thread exists in the model). -/
def scan_directory (rules : List ScanRule) (d : DirModel) (t0 t1 : Nat)
    (st : ScanState) : Option PathErr × ScanState :=
  if d.pathExists = false then (some PathErr.fileNotFound, st)
  else if d.isDir = false then (some PathErr.notADirectory, st)
  else
    let st1 := { st with
      is_scanning := true
      scan_cancelled := false
      stats_start_time := some t0 }
    let st2 := { st1 with stats_total_files := d.files.length }
    let st3 := d.files.foldl (process_file rules) st2
    (none,
     { st3 with
       stats_scanned_files := st3.scanned_files.length
       stats_skipped_files := st3.skipped_files.length
       stats_error_files := st3.error_files.length
       stats_end_time := some t1
       is_scanning := false })

/-- The Latin-1 (ISO-8859-1) codec: every byte decodes, to the character
with the same code point.  This models Python's `latin-1` text decoding,
which is total on arbitrary byte strings — the property behind the last
entry of the encoding chain. -/
def latin1_decode (bs : List Nat) : List Char :=
  bs.map Char.ofNat

/-- Decode functions for the four fallible codecs of the encoding chain;
`none` models a `UnicodeDecodeError`.  They are kept abstract — the
results proved below hold whatever these decoders do. -/
structure Decoders where
  utf8 : List Nat → Option (List Char)
  gbk : List Nat → Option (List Char)
  gb2312 : List Nat → Option (List Char)
  utf16 : List Nat → Option (List Char)

/-- Decoding a byte string with one encoding of the chain: the first
four are the abstract fallible codecs, Latin-1 is the total codec. -/
def decode_with (dec : Decoders) (e : Encoding) (bs : List Nat) :
    Option (List Char) :=
  match e with
  | Encoding.utf8 => dec.utf8 bs
  | Encoding.gbk => dec.gbk bs
  | Encoding.gb2312 => dec.gb2312 bs
  | Encoding.utf16 => dec.utf16 bs
  | Encoding.latin1 => some (latin1_decode bs)

/-- The per-encoding attempts of `read_file_content` for a file that can
be opened and fully read (no non-decode I/O error): each attempt decodes
the same byte content, succeeding or raising `UnicodeDecodeError`. -/
def attempt_of_bytes (dec : Decoders) (bs : List Nat) :
    Encoding → ReadResult := fun e =>
  match decode_with dec e bs with
  | some t => ReadResult.ok t
  | none => ReadResult.decodeError

/-- The paths `scan_file` appends to `scanned_files` for one file: the
file when it is classified text and its read produced non-empty
content. -/
def scannedDelta (fm : FileModel) : List String :=
  if fm.classifiedText = false then []
  else if readContent fm.readAttempt encodingsList = [] then []
  else [fm.path]

/-- The paths `scan_file` appends to `skipped_files` for one file. -/
def skippedDelta (fm : FileModel) : List String :=
  if fm.classifiedText = false then [fm.path] else []

/-- The entries the read of one file appends to `error_files`. -/
def errorsDelta (fm : FileModel) : List (String × String) :=
  if fm.classifiedText = false then []
  else readErrors fm.readAttempt fm.path encodingsList

/-- The amount processing one file adds to `stats['sensitive_items']`. -/
def itemsDelta (rules : List ScanRule) (fm : FileModel) : Nat :=
  if fm.classifiedText = false then 0
  else
    let c := readContent fm.readAttempt encodingsList
    if c = [] then 0 else item_count (scan_file_results rules c)

/-- A text-classified file whose UTF-8 read succeeds with empty content:
an empty `.txt` file. -/
def empty_txt_file : FileModel :=
  { path := "empty.txt", classifiedText := true,
    readAttempt := fun _ => ReadResult.ok [] }

/-- A directory containing exactly the empty text file. -/
def empty_file_dir : DirModel :=
  { pathExists := true, isDir := true, files := [empty_txt_file] }

/-- A text-classified file whose UTF-8 read succeeds with content
`"x"`. -/
def one_match_file : FileModel :=
  { path := "b.txt", classifiedText := true,
    readAttempt := fun _ => ReadResult.ok [Char.ofNat 120] }

/-- A directory containing exactly that one readable file. -/
def one_file_dir : DirModel :=
  { pathExists := true, isDir := true, files := [one_match_file] }

/-!  ## Helper lemmas -/

theorem readTry_decomp (f : Encoding → ReadResult) (path : String)
    (errs : List (String × String)) (es : List Encoding) :
    readTry f path errs es = (readContent f es, errs ++ readErrors f path es) := by
  induction es with
  | nil => simp [readTry, readContent, readErrors]
  | cons e es ih =>
    cases h : f e <;> simp [readTry, readContent, readErrors, h, ih]

theorem splitOnChar_ne_nil (c : Char) (l : List Char) : splitOnChar c l ≠ [] := by
  induction l with
  | nil => simp [splitOnChar]
  | cons x xs ih =>
    simp only [splitOnChar]
    split
    · simp
    · cases h : splitOnChar c xs with
      | nil => simp
      | cons y ys => simp [h]

/-- Chunks produced by splitting on `c` never contain `c`. -/
theorem not_mem_of_mem_splitOnChar {c : Char} {l chunk : List Char}
    (h : chunk ∈ splitOnChar c l) : c ∉ chunk := by
  induction l generalizing chunk with
  | nil =>
    simp [splitOnChar] at h
    simp [h]
  | cons x xs ih =>
    simp only [splitOnChar] at h
    by_cases hx : x = c
    · rw [if_pos hx] at h
      rcases List.mem_cons.mp h with h | h
      · simp [h]
      · exact ih h
    · rw [if_neg hx] at h
      cases hs : splitOnChar c xs with
      | nil => exact absurd hs (splitOnChar_ne_nil c xs)
      | cons y ys =>
        rw [hs] at h
        rcases List.mem_cons.mp h with h | h
        · subst h
          intro hc
          rcases List.mem_cons.mp hc with hc | hc
          · exact hx hc.symm
          · exact ih (hs ▸ List.mem_cons_self y ys) hc
        · exact ih (hs ▸ List.mem_cons.mpr (Or.inr h))

/-- Every character of a chunk of the split comes from the input. -/
theorem mem_of_mem_splitOnChar {c a : Char} {l chunk : List Char}
    (h : chunk ∈ splitOnChar c l) (ha : a ∈ chunk) : a ∈ l := by
  induction l generalizing chunk with
  | nil =>
    simp [splitOnChar] at h
    subst h
    simp at ha
  | cons x xs ih =>
    simp only [splitOnChar] at h
    by_cases hx : x = c
    · rw [if_pos hx] at h
      rcases List.mem_cons.mp h with h | h
      · subst h; simp at ha
      · exact List.mem_cons.mpr (Or.inr (ih h ha))
    · rw [if_neg hx] at h
      cases hs : splitOnChar c xs with
      | nil => exact absurd hs (splitOnChar_ne_nil c xs)
      | cons y ys =>
        rw [hs] at h
        rcases List.mem_cons.mp h with h | h
        · subst h
          rcases List.mem_cons.mp ha with ha | ha
          · exact List.mem_cons.mpr (Or.inl ha)
          · exact List.mem_cons.mpr
              (Or.inr (ih (hs ▸ List.mem_cons_self y ys) ha))
        · exact List.mem_cons.mpr
            (Or.inr (ih (hs ▸ List.mem_cons.mpr (Or.inr h)) ha))

theorem mem_scanLines {m : Matcher} {k : Nat} {ls : List (List Char)}
    {p : List Char × Nat} (h : p ∈ scanLines m k ls) :
    ∃ l ∈ ls, p.1 ∈ m l ∧ k ≤ p.2 := by
  induction ls generalizing k with
  | nil => simp [scanLines] at h
  | cons l ls ih =>
    simp only [scanLines] at h
    rcases List.mem_append.mp h with h | h
    · rcases List.mem_map.mp h with ⟨s, hs, hp⟩
      exact ⟨l, List.mem_cons_self l ls, by simp [← hp, hs]⟩
    · rcases ih h with ⟨l', hl', hp, hk⟩
      exact ⟨l', List.mem_cons.mpr (Or.inr hl'), hp, Nat.le_of_succ_le hk⟩

theorem scanLines_snd_ge {m : Matcher} {k : Nat} {ls : List (List Char)}
    {n : Nat} (h : n ∈ (scanLines m k ls).map Prod.snd) : k ≤ n := by
  rcases List.mem_map.mp h with ⟨p, hp, hn⟩
  rcases mem_scanLines hp with ⟨_, _, _, hk⟩
  exact hn ▸ hk

/-- Line numbers of one pattern's matches are produced in non-decreasing
order: all matches on one line carry the same number and later lines
carry larger numbers. -/
theorem sorted_scanLines (m : Matcher) (k : Nat) (ls : List (List Char)) :
    List.Sorted (· ≤ ·) ((scanLines m k ls).map Prod.snd) := by
  induction ls generalizing k with
  | nil => simp [scanLines]
  | cons l ls ih =>
    simp only [scanLines, List.map_append]
    rw [List.Sorted, List.pairwise_append]
    refine ⟨?_, ih (k + 1), ?_⟩
    · have hconst : ((m l).map (fun s => (s, k))).map Prod.snd
          = List.replicate (m l).length k := by
        rw [List.map_map]
        exact List.map_const' (m l) k
      rw [hconst]
      exact List.pairwise_replicate.mpr (Or.inr (le_refl k))
    · intro a ha b hb
      rcases List.mem_map.mp ha with ⟨p, hp, han⟩
      rcases List.mem_map.mp hp with ⟨s, _, hs⟩
      have hbk : k + 1 ≤ b := scanLines_snd_ge hb
      have hak : a = k := by simp [← hs] at han; omega
      omega

theorem readTry_skip_decodeErrors {f : Encoding → ReadResult} {pre : List Encoding}
    (hpre : ∀ e' ∈ pre, f e' = ReadResult.decodeError) (path : String)
    (errs : List (String × String)) (rest : List Encoding) :
    readTry f path errs (pre ++ rest) = readTry f path errs rest := by
  induction pre with
  | nil => rfl
  | cons e es ih =>
    have he : f e = ReadResult.decodeError := hpre e (List.mem_cons_self e es)
    simp only [List.cons_append, readTry, he]
    exact ih (fun e' h => hpre e' (List.mem_cons.mpr (Or.inr h)))

theorem readTry_all_decodeErrors {f : Encoding → ReadResult} {es : List Encoding}
    (h : ∀ e ∈ es, f e = ReadResult.decodeError) (path : String)
    (errs : List (String × String)) :
    readTry f path errs es = ([], errs ++ [(path, noEncodingMsg)]) := by
  induction es with
  | nil => rfl
  | cons e es ih =>
    have he : f e = ReadResult.decodeError := h e (List.mem_cons_self e es)
    simp only [readTry, he]
    exact ih (fun e' h' => h e' (List.mem_cons.mpr (Or.inr h')))

/-- Effect of processing one completed file on the session lists and
counters, for a non-cancelled state. -/
theorem process_file_effect (rules : List ScanRule) (st : ScanState)
    (fm : FileModel) (h : st.scan_cancelled = false) :
    (process_file rules st fm).scanned_files = st.scanned_files ++ scannedDelta fm ∧
    (process_file rules st fm).skipped_files = st.skipped_files ++ skippedDelta fm ∧
    (process_file rules st fm).error_files = st.error_files ++ errorsDelta fm ∧
    (process_file rules st fm).stats_sensitive_items
      = st.stats_sensitive_items + itemsDelta rules fm ∧
    (process_file rules st fm).scan_cancelled = false := by
  cases hcl : fm.classifiedText with
  | false =>
    simp [process_file, scan_file, h, hcl, scannedDelta, skippedDelta,
      errorsDelta, itemsDelta]
  | true =>
    have hread := readTry_decomp fm.readAttempt fm.path st.error_files encodingsList
    cases hc : readContent fm.readAttempt encodingsList with
    | nil =>
      simp [process_file, scan_file, h, hcl, read_file_content, hread, hc,
        scannedDelta, skippedDelta, errorsDelta, itemsDelta]
    | cons a c =>
      by_cases hfr : scan_file_results rules (a :: c) = []
      · simp [process_file, scan_file, h, hcl, read_file_content, hread, hc,
          hfr, scannedDelta, skippedDelta, errorsDelta, itemsDelta, item_count]
      · simp [process_file, scan_file, h, hcl, read_file_content, hread, hc,
          hfr, scannedDelta, skippedDelta, errorsDelta, itemsDelta]

/-- Effect of the whole completion loop: each list grows by the
concatenated per-file contributions and the item counter by their
sum — independently of the state the loop starts from. -/
theorem foldl_process_file (rules : List ScanRule) :
    ∀ (files : List FileModel) (st : ScanState), st.scan_cancelled = false →
      ((files.foldl (process_file rules) st).scanned_files
        = st.scanned_files ++ files.flatMap scannedDelta) ∧
      ((files.foldl (process_file rules) st).skipped_files
        = st.skipped_files ++ files.flatMap skippedDelta) ∧
      ((files.foldl (process_file rules) st).error_files
        = st.error_files ++ files.flatMap errorsDelta) ∧
      ((files.foldl (process_file rules) st).stats_sensitive_items
        = st.stats_sensitive_items + (files.map (itemsDelta rules)).sum) := by
  intro files
  induction files with
  | nil => intro st h; simp
  | cons fm files ih =>
    intro st h
    obtain ⟨hs, hk, he, hi, hc⟩ := process_file_effect rules st fm h
    obtain ⟨ihs, ihk, ihe, ihi⟩ := ih (process_file rules st fm) hc
    refine ⟨?_, ?_, ?_, ?_⟩ <;>
      simp [List.foldl_cons, ihs, ihk, ihe, ihi, hs, hk, he, hi, List.append_assoc,
        Nat.add_assoc]

/-- `scan_directory` on a valid root: the final `scanned_files` list is
the incoming one extended by the per-file contributions.  The statement
is definitionally aligned with `scan_directory`'s body, so it follows
from the fold lemma. -/
theorem scan_directory_scanned_eq (rules : List ScanRule) (files : List FileModel)
    (t0 t1 : Nat) (st : ScanState) :
    (scan_directory rules { pathExists := true, isDir := true, files := files }
        t0 t1 st).2.scanned_files
      = st.scanned_files ++ files.flatMap scannedDelta :=
  (foldl_process_file rules files
    { st with
      is_scanning := true
      scan_cancelled := false
      stats_start_time := some t0
      stats_total_files := files.length } rfl).1

/-- As `scan_directory_scanned_eq`, for `skipped_files`. -/
theorem scan_directory_skipped_eq (rules : List ScanRule) (files : List FileModel)
    (t0 t1 : Nat) (st : ScanState) :
    (scan_directory rules { pathExists := true, isDir := true, files := files }
        t0 t1 st).2.skipped_files
      = st.skipped_files ++ files.flatMap skippedDelta :=
  (foldl_process_file rules files
    { st with
      is_scanning := true
      scan_cancelled := false
      stats_start_time := some t0
      stats_total_files := files.length } rfl).2.1

/-- As `scan_directory_scanned_eq`, for `error_files`. -/
theorem scan_directory_errors_eq (rules : List ScanRule) (files : List FileModel)
    (t0 t1 : Nat) (st : ScanState) :
    (scan_directory rules { pathExists := true, isDir := true, files := files }
        t0 t1 st).2.error_files
      = st.error_files ++ files.flatMap errorsDelta :=
  (foldl_process_file rules files
    { st with
      is_scanning := true
      scan_cancelled := false
      stats_start_time := some t0
      stats_total_files := files.length } rfl).2.2.1

/-- As `scan_directory_scanned_eq`, for `stats['sensitive_items']`. -/
theorem scan_directory_items_eq (rules : List ScanRule) (files : List FileModel)
    (t0 t1 : Nat) (st : ScanState) :
    (scan_directory rules { pathExists := true, isDir := true, files := files }
        t0 t1 st).2.stats_sensitive_items
      = st.stats_sensitive_items + (files.map (itemsDelta rules)).sum :=
  (foldl_process_file rules files
    { st with
      is_scanning := true
      scan_cancelled := false
      stats_start_time := some t0
      stats_total_files := files.length } rfl).2.2.2

/-!  ## Claim theorems -/

/-- C3: per-pattern scanning is line-local.  For every input text and
every compiled pattern — abstracted as a matcher whose matches are made
of characters of the searched line, as `finditer` matches are — every
returned matched text contains no newline (despite the `re.DOTALL`
compilation mode, a match can never span a line boundary) and no
carriage return when the universally-translated content has none, line
numbers are 1-based, and within the pattern's result list the line
numbers are non-decreasing. -/
theorem scan_pattern_line_local (m : Matcher) (content : List Char)
    (hm : ∀ line s, s ∈ m line → ∀ c, c ∈ s → c ∈ line) :
    (∀ p ∈ scan_pattern m content,
      nlChar ∉ p.1 ∧ 1 ≤ p.2 ∧ (crChar ∉ content → crChar ∉ p.1)) ∧
    List.Sorted (· ≤ ·) ((scan_pattern m content).map Prod.snd) := by
  constructor
  · intro p hp
    simp only [scan_pattern] at hp
    rcases mem_scanLines hp with ⟨l, hl, hpm, hk⟩
    refine ⟨?_, hk, ?_⟩
    · intro hc
      exact not_mem_of_mem_splitOnChar hl (hm l p.1 hpm _ hc)
    · intro hcr hc
      exact hcr (mem_of_mem_splitOnChar hl (hm l p.1 hpm _ hc))
  · exact sorted_scanLines m 1 _

/-- Witness for C3 at the matcher returning the whole line and the
content `"a\nb"`. -/
theorem scan_pattern_line_local_witness :
    (∀ p ∈ scan_pattern (fun l => [l]) [Char.ofNat 97, Char.ofNat 10, Char.ofNat 98],
      nlChar ∉ p.1 ∧ 1 ≤ p.2 ∧
        (crChar ∉ [Char.ofNat 97, Char.ofNat 10, Char.ofNat 98] → crChar ∉ p.1)) ∧
    List.Sorted (· ≤ ·)
      ((scan_pattern (fun l => [l])
        [Char.ofNat 97, Char.ofNat 10, Char.ofNat 98]).map Prod.snd) :=
  scan_pattern_line_local (fun l => [l]) _
    (fun line s hs c hc => by
      simp only [List.mem_singleton] at hs
      exact hs ▸ hc)

/-- C6: `read_file_content` tries UTF-8, GBK, GB2312, UTF-16, Latin-1 in
exactly that order and returns the text of the first attempt that fully
decodes, leaving `error_files` untouched; if every encoding raises a
decode error it appends the fixed message, and the first non-decode
I/O error appends that error's message — in both cases returning no
content (the empty string). -/
theorem read_file_content_spec (f : Encoding → ReadResult) (path : String)
    (errs : List (String × String)) :
    (∀ pre e suf t, encodingsList = pre ++ e :: suf →
      (∀ e' ∈ pre, f e' = ReadResult.decodeError) → f e = ReadResult.ok t →
      read_file_content f path errs = (t, errs)) ∧
    (∀ pre e suf m, encodingsList = pre ++ e :: suf →
      (∀ e' ∈ pre, f e' = ReadResult.decodeError) → f e = ReadResult.ioError m →
      read_file_content f path errs = ([], errs ++ [(path, m)])) ∧
    ((∀ e ∈ encodingsList, f e = ReadResult.decodeError) →
      read_file_content f path errs = ([], errs ++ [(path, noEncodingMsg)])) := by
  refine ⟨?_, ?_, ?_⟩
  · intro pre e suf t hsplit hpre hok
    rw [read_file_content, hsplit, readTry_skip_decodeErrors hpre]
    simp [readTry, hok]
  · intro pre e suf m hsplit hpre hio
    rw [read_file_content, hsplit, readTry_skip_decodeErrors hpre]
    simp [readTry, hio]
  · intro hall
    exact readTry_all_decodeErrors hall path errs

/-- Witness for C6: a file whose UTF-8 and GBK attempts raise decode
errors and whose GB2312 attempt succeeds is read with the GB2312 text
and no error entry. -/
theorem read_file_content_spec_witness :
    read_file_content
      (fun e =>
        match e with
        | Encoding.utf8 => ReadResult.decodeError
        | Encoding.gbk => ReadResult.decodeError
        | Encoding.gb2312 => ReadResult.ok [Char.ofNat 97]
        | Encoding.utf16 => ReadResult.ioError "unused"
        | Encoding.latin1 => ReadResult.decodeError)
      "f.txt" [] = ([Char.ofNat 97], []) :=
  (read_file_content_spec _ "f.txt" []).1
    [Encoding.utf8, Encoding.gbk] Encoding.gb2312
    [Encoding.utf16, Encoding.latin1] [Char.ofNat 97]
    (by rfl) (by intro e' h; fin_cases h <;> rfl) (by rfl)

/-- C10: Latin-1, the last encoding tried, decodes every byte sequence,
so for a file that opens and reads without a non-decode I/O error the
reader always returns decoded text: whatever the four fallible decoders
do, the encoding chain ends in a success, `error_files` is unchanged,
and the "no encoding could read the file" branch is unreachable. -/
theorem read_file_content_never_exhausts (dec : Decoders) (bs : List Nat)
    (path : String) (errs : List (String × String)) :
    ∃ t, read_file_content (attempt_of_bytes dec bs) path errs = (t, errs) := by
  cases h1 : dec.utf8 bs with
  | some t =>
    exact ⟨t, by
      simp [read_file_content, encodingsList, readTry, attempt_of_bytes,
        decode_with, h1]⟩
  | none =>
    cases h2 : dec.gbk bs with
    | some t =>
      exact ⟨t, by
        simp [read_file_content, encodingsList, readTry, attempt_of_bytes,
          decode_with, h1, h2]⟩
    | none =>
      cases h3 : dec.gb2312 bs with
      | some t =>
        exact ⟨t, by
          simp [read_file_content, encodingsList, readTry, attempt_of_bytes,
            decode_with, h1, h2, h3]⟩
      | none =>
        cases h4 : dec.utf16 bs with
        | some t =>
          exact ⟨t, by
            simp [read_file_content, encodingsList, readTry, attempt_of_bytes,
              decode_with, h1, h2, h3, h4]⟩
        | none =>
          exact ⟨latin1_decode bs, by
            simp [read_file_content, encodingsList, readTry, attempt_of_bytes,
              decode_with, h1, h2, h3, h4]⟩

/-- C7: the text/binary classifier applies its rules in source order
with the first applicable rule winning: binary deny-list, text
allow-list, resolvable MIME type (text exactly for `text/*`, JSON, XML
or JavaScript), then the 1024-byte fallback — failure to open/read is
not text, a null byte is not text, and otherwise the file is text iff
the chunk decodes as UTF-8 or as GBK. -/
theorem is_text_file_decision_order (u g : List Nat → Bool) (fp : FileProbe) :
    (str_lower fp.suffix ∈ binary_extensions → is_text_file u g fp = false) ∧
    (str_lower fp.suffix ∉ binary_extensions →
      str_lower fp.suffix ∈ text_extensions → is_text_file u g fp = true) ∧
    (∀ m, str_lower fp.suffix ∉ binary_extensions →
      str_lower fp.suffix ∉ text_extensions → fp.mimeType = some m →
      is_text_file u g fp = mimeIsText m) ∧
    (str_lower fp.suffix ∉ binary_extensions →
      str_lower fp.suffix ∉ text_extensions → fp.mimeType = none →
      fp.openOk = false → is_text_file u g fp = false) ∧
    (str_lower fp.suffix ∉ binary_extensions →
      str_lower fp.suffix ∉ text_extensions → fp.mimeType = none →
      fp.openOk = true → (0 : Nat) ∈ fp.bytes.take 1024 →
      is_text_file u g fp = false) ∧
    (str_lower fp.suffix ∉ binary_extensions →
      str_lower fp.suffix ∉ text_extensions → fp.mimeType = none →
      fp.openOk = true → (0 : Nat) ∉ fp.bytes.take 1024 →
      is_text_file u g fp = (u (fp.bytes.take 1024) || g (fp.bytes.take 1024))) := by
  refine ⟨?_, ?_, ?_, ?_, ?_, ?_⟩
  · intro h1
    simp [is_text_file, h1]
  · intro h1 h2
    simp [is_text_file, h1, h2]
  · intro m h1 h2 hm
    simp [is_text_file, h1, h2, hm]
  · intro h1 h2 hm ho
    simp [is_text_file, h1, h2, hm, ho]
  · intro h1 h2 hm ho hz
    simp [is_text_file, h1, h2, hm, ho, hz]
  · intro h1 h2 hm ho hz
    simp [is_text_file, h1, h2, hm, ho, hz]

/-- Witness for C7: a `.exe` file is classified binary by the first
rule, whatever the chunk decoders say. -/
theorem is_text_file_decision_order_witness :
    is_text_file (fun _ => true) (fun _ => true)
      { suffix := ".exe", mimeType := none, openOk := true, bytes := [] } = false :=
  (is_text_file_decision_order (fun _ => true) (fun _ => true)
    { suffix := ".exe", mimeType := none, openOk := true, bytes := [] }).1
    (by decide)

theorem assoc_value_unique {α β : Type} [DecidableEq α] :
    ∀ (l : List (α × β)), (l.map Prod.fst).Nodup →
      ∀ {a : α} {b₁ b₂ : β}, (a, b₁) ∈ l → (a, b₂) ∈ l → b₁ = b₂ := by
  intro l
  induction l with
  | nil => intro _ a b₁ b₂ h; simp at h
  | cons p l ih =>
    intro hnd a b₁ b₂ h1 h2
    rw [List.map_cons, List.nodup_cons] at hnd
    rcases List.mem_cons.mp h1 with h1 | h1 <;>
      rcases List.mem_cons.mp h2 with h2 | h2
    · exact congrArg Prod.snd (h1.trans h2.symm)
    · exact absurd (List.mem_map.mpr ⟨(a, b₂), h2, by rw [← h1]⟩) hnd.1
    · exact absurd (List.mem_map.mpr ⟨(a, b₁), h1, by rw [← h2]⟩) hnd.1
    · exact ih hnd.2 h1 h2

/-- C8: loading a rule set drops exactly the rules whose regex fails to
compile: a rule whose `re.compile` raises contributes no entry to
`compiled_patterns`, every rule whose regex compiles gets its entry, and
loading is a total function (it never aborts because of one bad
rule). -/
theorem compile_patterns_drops_only_bad {M : Type} (compile : String → Option M)
    (patterns : List (String × PatternInfo)) (name : String) (info : PatternInfo)
    (hnodup : (patterns.map Prod.fst).Nodup) (hmem : (name, info) ∈ patterns) :
    (compile info.regex = none →
      name ∉ (compile_patterns compile patterns).map Prod.fst) ∧
    (∀ m, compile info.regex = some m →
      (name, m) ∈ compile_patterns compile patterns) := by
  constructor
  · intro hnone hin
    rcases List.mem_map.mp hin with ⟨q, hq, hfst⟩
    rcases List.mem_filterMap.mp hq with ⟨p, hp, hcomp⟩
    rcases hc : compile p.2.regex with _ | m
    · rw [hc] at hcomp
      exact Option.noConfusion hcomp
    · rw [hc] at hcomp
      injection hcomp with hq'
      have hq2 : (p.1, m) = q := hq'
      have hpn : p.1 = name := by rw [← hq2] at hfst; exact hfst
      have hpi : p.2 = info := by
        have hp' : (name, p.2) ∈ patterns := by
          have hpp := hp
          rw [show p = (p.1, p.2) from rfl, hpn] at hpp
          exact hpp
        exact assoc_value_unique patterns hnodup hp' hmem
      rw [hpi] at hc
      rw [hc] at hnone
      exact Option.noConfusion hnone
  · intro m hm
    exact List.mem_filterMap.mpr ⟨(name, info), hmem, by simp [hm]⟩

/-- Witness for C8: with a compiler failing exactly on the regex `"("`,
the bad rule is excluded and the two good rules keep their entries. -/
theorem compile_patterns_drops_only_bad_witness :
    "bad" ∉ (compile_patterns
      (fun s => if s = "(" then none else some s)
      [("good1", ⟨"a+", "d1", "低", true⟩),
       ("bad", ⟨"(", "d2", "高", true⟩),
       ("good2", ⟨"b*", "d3", "中", true⟩)]).map Prod.fst :=
  (compile_patterns_drops_only_bad
    (fun s => if s = "(" then none else some s)
    [("good1", ⟨"a+", "d1", "低", true⟩),
     ("bad", ⟨"(", "d2", "高", true⟩),
     ("good2", ⟨"b*", "d3", "中", true⟩)]
    "bad" ⟨"(", "d2", "高", true⟩ (by decide) (by decide)).1 (by decide)

/-- C9 counterexample: a rule with `enabled = false` is NOT filtered out
before compilation — the compile loop of `__init__` ignores the flag, so
the disabled rule gets an entry in `compiled_patterns` (it is
compiled-but-skipped, the skip happening inside `scan_file`'s loop). -/
theorem compile_patterns_includes_disabled :
    "off" ∈ (compile_patterns (fun s => some s)
      [("off", ⟨"x", "d", "低", false⟩)]).map Prod.fst := by
  decide

/-- C9 (amended): scanning with a disabled rule present yields exactly
the result mapping of scanning with the rule absent: inside `scan_file`
the rule is skipped before the per-line match loop, so it contributes no
matches and no result entry under any input. -/
theorem scan_file_results_disabled_rule (rules1 rules2 : List ScanRule)
    (r : ScanRule) (content : List Char) (h : r.enabled = false) :
    scan_file_results (rules1 ++ r :: rules2) content =
      scan_file_results (rules1 ++ rules2) content := by
  simp only [scan_file_results, List.filterMap_append, List.filterMap_cons]
  rw [if_pos h]

/-- Witness for C9: a concrete disabled rule whose matcher would match
everything still contributes nothing. -/
theorem scan_file_results_disabled_rule_witness :
    scan_file_results
      [{ name := "off", enabled := false, matcher := fun l => [l] }]
      [Char.ofNat 97] =
      scan_file_results [] [Char.ofNat 97] :=
  scan_file_results_disabled_rule [] []
    { name := "off", enabled := false, matcher := fun l => [l] }
    [Char.ofNat 97] rfl

/-- C1 (code evaluated at the failing input): a completed scan of a
directory holding one empty text file ends with
`scannedFiles + skippedFiles + errorFiles = 0` but `totalFiles = 1`:
the empty file's read succeeds with the falsy content `""`, so
`scan_file` records it in none of the three lists and the claimed
invariant `scanned + skipped + error == total` fails. -/
theorem stats_sum_misses_empty_file :
    ((scan_directory [] empty_file_dir 0 1 init_state).2.stats_scanned_files +
      (scan_directory [] empty_file_dir 0 1 init_state).2.stats_skipped_files +
      (scan_directory [] empty_file_dir 0 1 init_state).2.stats_error_files = 0) ∧
    (scan_directory [] empty_file_dir 0 1 init_state).2.stats_total_files = 1 := by
  decide

/-- C2 (code evaluated at the failing input): the discovered empty text
file receives NO outcome — it ends the scan in none of
`scanned_files`, `skipped_files`, `error_files`, although the claim
says a readable text file with zero matches is recorded as Scanned.
The three outcomes are therefore not exhaustive over the discovered
set. -/
theorem empty_file_gets_no_outcome :
    (scan_directory [] empty_file_dir 0 1 init_state).2.scanned_files = [] ∧
    (scan_directory [] empty_file_dir 0 1 init_state).2.skipped_files = [] ∧
    (scan_directory [] empty_file_dir 0 1 init_state).2.error_files = [] ∧
    (scan_directory [] empty_file_dir 0 1 init_state).2.stats_total_files = 1 := by
  decide

/-- C4 counterexample: running `scan_directory` twice on the same
extractor over a one-file directory leaves the second scan with
`stats['scanned_files'] = 2` while a fresh scan reports `1` and
`totalFiles = 1` — the first scan's lists leak into the second scan's
stats, refuting "the counters reflect only that scan". -/
theorem scan_directory_state_leaks :
    ((scan_directory [] one_file_dir 2 3
        (scan_directory [] one_file_dir 0 1 init_state).2).2.stats_scanned_files = 2) ∧
    ((scan_directory [] one_file_dir 0 1 init_state).2.stats_scanned_files = 1) ∧
    ((scan_directory [] one_file_dir 2 3
        (scan_directory [] one_file_dir 0 1 init_state).2).2.stats_total_files = 1) := by
  decide

/-- C4 (amended): `scan_directory` does not reset the session: it
appends this scan's outcomes to whatever `results`/lists/counters the
extractor already holds.  Concretely, the state after scanning from any
prior state equals the prior lists extended by exactly the lists a fresh
extractor would produce, and likewise for `sensitive_items` — so a fresh
session requires a fresh extractor (as the GUI creates per scan), while
a reused extractor accumulates. -/
theorem scan_directory_appends_to_prior_state (rules : List ScanRule)
    (d : DirModel) (t0 t1 : Nat) (st : ScanState)
    (hex : d.pathExists = true) (hdir : d.isDir = true) :
    ((scan_directory rules d t0 t1 st).2.scanned_files
      = st.scanned_files ++ (scan_directory rules d t0 t1 init_state).2.scanned_files) ∧
    ((scan_directory rules d t0 t1 st).2.skipped_files
      = st.skipped_files ++ (scan_directory rules d t0 t1 init_state).2.skipped_files) ∧
    ((scan_directory rules d t0 t1 st).2.error_files
      = st.error_files ++ (scan_directory rules d t0 t1 init_state).2.error_files) ∧
    ((scan_directory rules d t0 t1 st).2.stats_sensitive_items
      = st.stats_sensitive_items
        + (scan_directory rules d t0 t1 init_state).2.stats_sensitive_items) := by
  rcases d with ⟨pe, idir, files⟩
  change pe = true at hex
  change idir = true at hdir
  subst hex
  subst hdir
  refine ⟨?_, ?_, ?_, ?_⟩
  · rw [scan_directory_scanned_eq, scan_directory_scanned_eq]
    simp [init_state]
  · rw [scan_directory_skipped_eq, scan_directory_skipped_eq]
    simp [init_state]
  · rw [scan_directory_errors_eq, scan_directory_errors_eq]
    simp [init_state]
  · rw [scan_directory_items_eq, scan_directory_items_eq]
    simp [init_state]

/-- Witness for C4 (amended) at the one-file directory, starting from a
fresh extractor. -/
theorem scan_directory_appends_to_prior_state_witness :
    ((scan_directory [] one_file_dir 0 1 init_state).2.scanned_files
      = init_state.scanned_files
        ++ (scan_directory [] one_file_dir 0 1 init_state).2.scanned_files) ∧
    ((scan_directory [] one_file_dir 0 1 init_state).2.skipped_files
      = init_state.skipped_files
        ++ (scan_directory [] one_file_dir 0 1 init_state).2.skipped_files) ∧
    ((scan_directory [] one_file_dir 0 1 init_state).2.error_files
      = init_state.error_files
        ++ (scan_directory [] one_file_dir 0 1 init_state).2.error_files) ∧
    ((scan_directory [] one_file_dir 0 1 init_state).2.stats_sensitive_items
      = init_state.stats_sensitive_items
        + (scan_directory [] one_file_dir 0 1 init_state).2.stats_sensitive_items) :=
  scan_directory_appends_to_prior_state [] one_file_dir 0 1 init_state rfl rfl

/-- C5: a missing root raises `FileNotFoundError` and an existing
non-directory root raises `NotADirectoryError`; both are raised before
any work and the extractor state is exactly the state before the call
(no start time recorded, results, stats and lists unchanged). -/
theorem scan_directory_path_errors (rules : List ScanRule) (d : DirModel)
    (t0 t1 : Nat) (st : ScanState) :
    (d.pathExists = false →
      scan_directory rules d t0 t1 st = (some PathErr.fileNotFound, st)) ∧
    (d.pathExists = true → d.isDir = false →
      scan_directory rules d t0 t1 st = (some PathErr.notADirectory, st)) := by
  constructor
  · intro h
    simp [scan_directory, h]
  · intro h1 h2
    simp [scan_directory, h1, h2]

/-- Witness for C5: a non-existing root, and an existing root that is a
plain file, leave a fresh extractor untouched. -/
theorem scan_directory_path_errors_witness :
    scan_directory [] { pathExists := false, isDir := false, files := [] } 0 1
        init_state = (some PathErr.fileNotFound, init_state) ∧
    scan_directory [] { pathExists := true, isDir := false, files := [] } 0 1
        init_state = (some PathErr.notADirectory, init_state) :=
  ⟨(scan_directory_path_errors [] _ 0 1 init_state).1 rfl,
   (scan_directory_path_errors [] _ 0 1 init_state).2 rfl rfl⟩

end SensitiveExtractor
